import Mathlib

/-!
Verification of the `sort-imports` lint rule (deno_lint, `src/rules/sort_imports.rs`).

The development shallowly embeds the rule's data model and operations:
statement descriptors are `ImportDecl` values, source locations are `Nat`
spans, the per-statement classifier is `handle_specifiers` /
`classify_specifiers` (the loop body of `handle_import_decl`), the shared
pair-scan is `get_err_index` (whose loop is `get_err_index_loop`, made
structurally recursive over the enumerated name list), the member-order
checker is `sort_import_decl`, the statement-order checker is
`sort_line_imports`, and a whole rule invocation is `lint_module`.
Diagnostics are collected into a list instead of a sink; a Rust `unwrap`
panic is modelled by an `Option` result, `none` meaning a runtime failure.
-/

-- Data model

inductive ImportTypes where
  | None
  | All
  | Multiple
  | Single
deriving DecidableEq

structure ImportIdent where
  import_decl : String
  span : Nat
  import_type : ImportTypes
deriving DecidableEq

structure SortImportsOptions where
  ignore_case : Bool
  ignore_declaration_sort : Bool
  ignore_member_sort : Bool
  member_syntax_sort_order : List ImportTypes
deriving DecidableEq

/-- One emitted diagnostic: span, rule code and message. -/
structure Diagnostic where
  span : Nat
  code : String
  message : String
deriving DecidableEq

/-- A specifier of an `ImportDecl` as the rule consumes it: its shape, the
bound local name (`local.sym`) and, for named specifiers, the local span
used for member diagnostics. -/
inductive ImportSpecifier where
  | Named (local_sym : String) (local_span : Nat)
  | Default (local_sym : String)
  | Namespace (local_sym : String)
deriving DecidableEq

/-- An import-statement descriptor: statement span and specifier list in
source order. -/
structure ImportDecl where
  span : Nat
  specifiers : List ImportSpecifier
deriving DecidableEq

def dummyIdent : ImportIdent := ImportIdent.mk "" 0 ImportTypes.None

-- Helper functions (source lines 35-59)

def str_to_import_types (import_type_str : String) : ImportTypes :=
  if import_type_str = "none" then ImportTypes.None
  else if import_type_str = "all" then ImportTypes.All
  else if import_type_str = "multiple" then ImportTypes.Multiple
  else if import_type_str = "single" then ImportTypes.Single
  else ImportTypes.None

def import_types_to_string (import_type : ImportTypes) : String :=
  match import_type with
  | ImportTypes.None => "none"
  | ImportTypes.All => "all"
  | ImportTypes.Multiple => "multiple"
  | ImportTypes.Single => "single"

def config_to_enum (config : List String) : List ImportTypes :=
  config.map str_to_import_types

/-- Default visitor options (`SortImportsVisitor::default`). -/
def default_options : SortImportsOptions :=
  SortImportsOptions.mk false false false
    (config_to_enum ["none", "all", "multiple", "single"])

-- get_err_index and its helpers (source lines 120-201)

def get_sortable_name (opts : SortImportsOptions) (specifier : ImportIdent) : String :=
  if opts.ignore_case then specifier.import_decl.toLower else specifier.import_decl

/-- Rust's `Ord` on `String` is lexicographic over the UTF-8 bytes, which
coincides with lexicographic order over the Unicode scalar values. This is
that order on the character data, written so the kernel can evaluate it. -/
def strLtList : List Char → List Char → Bool
  | [], [] => false
  | [], _ :: _ => true
  | _ :: _, [] => false
  | c :: cs, d :: ds =>
      if c.toNat < d.toNat then true
      else if d.toNat < c.toNat then false
      else strLtList cs ds

def strLt (a b : String) : Bool := strLtList a.data b.data

def strLe (a b : String) : Bool := !(strLt b a)

/-- `Vec::sort` on a list of strings: stable insertion sort by `≤`. -/
def insertStr (a : String) : List String → List String
  | [] => [a]
  | b :: bs => if strLe a b then a :: b :: bs else b :: insertStr a bs

def sortStrings : List String → List String
  | [] => []
  | a :: rest => insertStr a (sortStrings rest)

def get_member_param_grp_index (opts : SortImportsOptions) (variant : ImportTypes) :
    Option Nat :=
  opts.member_syntax_sort_order.findIdx? (fun import_type => variant = import_type)

/-- The adjacent-pair alphabetical test of the loop body (source lines
158-166): sort the pair `[next, current]` and flag when the head of the
sorted pair is not the current name, i.e. when `next` sorts strictly
before `current`. -/
def alpha_viol (identifier_names : List String) (index : Nat) : Bool :=
  let identifier_name := identifier_names.getD index ""
  let reported_identifier := identifier_names.getD (index + 1) ""
  let current_and_next_ident := sortStrings [reported_identifier, identifier_name]
  decide (current_and_next_ident.getD 0 "" ≠ identifier_name)

/-- Outcome of the group-order block at one loop index: `panic` when an
`unwrap` of a group-index lookup fails, `skip push` when the groups differ
(`push` records whether an unexpected-order index is pushed) and the
iteration `continue`s, `fallthrough` when control reaches the
alphabetical check. -/
inductive GroupStep where
  | panic
  | skip (push : Bool)
  | fallthrough
deriving DecidableEq

def group_check (opts : SortImportsOptions) (import_specifiers : List ImportIdent)
    (report_multiple : Option Bool) (index : Nat) : GroupStep :=
  if report_multiple.isSome ∧ index ≠ import_specifiers.length - 1 then
    match get_member_param_grp_index opts
            (import_specifiers.getD index dummyIdent).import_type,
          get_member_param_grp_index opts
            (import_specifiers.getD (index + 1) dummyIdent).import_type with
    | some current_member_group_index, some next_memeber_group_index =>
        if current_member_group_index ≠ next_memeber_group_index then
          GroupStep.skip (decide (next_memeber_group_index < current_member_group_index))
        else
          GroupStep.fallthrough
    | _, _ => GroupStep.panic
  else
    GroupStep.fallthrough

/-- The `for (index, identifier_name) in identifier_names.iter().enumerate()`
loop of `get_err_index`, recursing structurally over the enumerated list
while tracking the running index and the three accumulators. A `break`
returns the current state; an `unwrap` failure returns `none`. -/
def get_err_index_loop (opts : SortImportsOptions)
    (import_specifiers : List ImportIdent) (identifier_names : List String)
    (report_multiple : Option Bool) :
    List String → Nat → Option Nat → List Nat → List Nat →
    Option (Option Nat × List Nat × List Nat)
  | [], _, first_unsorted_index, error_indices, unexpected_order_indices =>
      some (first_unsorted_index, error_indices, unexpected_order_indices)
  | _ :: rest, index, first_unsorted_index, error_indices, unexpected_order_indices =>
      match group_check opts import_specifiers report_multiple index with
      | GroupStep.panic => none
      | GroupStep.skip push =>
          get_err_index_loop opts import_specifiers identifier_names report_multiple
            rest (index + 1) first_unsorted_index error_indices
            (if push then unexpected_order_indices ++ [index + 1]
             else unexpected_order_indices)
      | GroupStep.fallthrough =>
          if index ≠ import_specifiers.length - 1 then
            if alpha_viol identifier_names index then
              if report_multiple.isSome then
                get_err_index_loop opts import_specifiers identifier_names report_multiple
                  rest (index + 1) (some (index + 1)) (error_indices ++ [index + 1])
                  unexpected_order_indices
              else
                some (some (index + 1), error_indices, unexpected_order_indices)
            else
              get_err_index_loop opts import_specifiers identifier_names report_multiple
                rest (index + 1) first_unsorted_index error_indices
                unexpected_order_indices
          else
            get_err_index_loop opts import_specifiers identifier_names report_multiple
              rest (index + 1) first_unsorted_index error_indices
              unexpected_order_indices

def get_err_index (opts : SortImportsOptions) (import_specifiers : List ImportIdent)
    (report_multiple : Option Bool) :
    Option (Option Nat × Option (List Nat) × Option (List Nat)) :=
  let identifier_names := import_specifiers.map (get_sortable_name opts)
  (get_err_index_loop opts import_specifiers identifier_names report_multiple
      identifier_names 0 none [] []).map
    (fun r =>
      (r.1,
       if r.2.1 ≠ [] then some r.2.1 else none,
       if r.2.2 ≠ [] then some r.2.2 else none))

-- Diagnostic builders (the message construction of source lines 208-217,
-- 228-233 and 236-250)

def member_diag (import_specifiers : List ImportIdent) (index : Nat) : Diagnostic :=
  Diagnostic.mk (import_specifiers.getD index dummyIdent).span "sort-imports"
    ("Member '" ++ (import_specifiers.getD index dummyIdent).import_decl
      ++ "' of the import declaration should be sorted alphabetically")

def alpha_diag (line_imports : List ImportIdent) (n : Nat) : Diagnostic :=
  Diagnostic.mk (line_imports.getD n dummyIdent).span "sort-imports"
    "Imports should be sorted alphabetically"

def group_diag (line_imports : List ImportIdent) (index : Nat) : Diagnostic :=
  Diagnostic.mk (line_imports.getD index dummyIdent).span "sort-imports"
    ("Expected '"
      ++ import_types_to_string (line_imports.getD index dummyIdent).import_type
      ++ "' syntax before '"
      ++ import_types_to_string (line_imports.getD (index - 1) dummyIdent).import_type
      ++ "' syntax")

-- Member-order checker (source lines 203-221)

def sort_import_decl (opts : SortImportsOptions)
    (import_specifiers : List ImportIdent) : Option (List Diagnostic) :=
  if !opts.ignore_member_sort then
    (get_err_index opts import_specifiers none).map
      (fun r =>
        match r.1 with
        | some index => [member_diag import_specifiers index]
        | none => [])
  else
    some []

-- Statement-order checker (source lines 223-253)

def sort_line_imports (opts : SortImportsOptions)
    (line_imports : List ImportIdent) : Option (List Diagnostic) :=
  (get_err_index opts line_imports (some true)).map
    (fun r =>
      (match r.2.1 with
       | some vec_n => vec_n.map (alpha_diag line_imports)
       | none => []) ++
      (match r.2.2 with
       | some indices => indices.map (group_diag line_imports)
       | none => []))

-- Classifier (source lines 255-304)

/-- The specifier loop of `handle_import_decl`: builds the member list
`import_ident_vec` and the statement record `import_ident`, tracking the
enumeration index. -/
def handle_specifiers (import_stmt : ImportDecl) (index : Nat)
    (import_ident_vec : List ImportIdent) (import_ident : ImportIdent) :
    List ImportSpecifier → List ImportIdent × ImportIdent
  | [] => (import_ident_vec, import_ident)
  | specifier :: rest =>
      match specifier with
      | ImportSpecifier.Named local_sym local_span =>
          handle_specifiers import_stmt (index + 1)
            (import_ident_vec ++
              [ImportIdent.mk local_sym local_span
                (if import_stmt.specifiers.length > 1 then ImportTypes.Multiple
                 else ImportTypes.Single)])
            (if index = 0 then
              ImportIdent.mk local_sym import_stmt.span
                (if import_stmt.specifiers.length > 1 then ImportTypes.Multiple
                 else ImportTypes.Single)
             else import_ident)
            rest
      | ImportSpecifier.Default local_sym =>
          handle_specifiers import_stmt (index + 1) import_ident_vec
            (ImportIdent.mk local_sym import_stmt.span ImportTypes.Single) rest
      | ImportSpecifier.Namespace local_sym =>
          handle_specifiers import_stmt (index + 1) import_ident_vec
            (ImportIdent.mk local_sym import_stmt.span ImportTypes.All) rest

def classify_specifiers (import_stmt : ImportDecl) :
    List ImportIdent × ImportIdent :=
  handle_specifiers import_stmt 0 []
    (ImportIdent.mk "" import_stmt.span ImportTypes.None) import_stmt.specifiers

-- Visitor state and whole-invocation driver (source lines 87-96, 300-315)

structure VisitorState where
  line_imports : List ImportIdent
  diagnostics : List Diagnostic
deriving DecidableEq

def handle_import_decl (opts : SortImportsOptions) (st : VisitorState)
    (import_stmt : ImportDecl) : Option VisitorState :=
  let r := classify_specifiers import_stmt
  let st2 := VisitorState.mk (st.line_imports ++ [r.2]) st.diagnostics
  if !opts.ignore_declaration_sort then
    (sort_import_decl opts r.1).map
      (fun ds => VisitorState.mk st2.line_imports (st2.diagnostics ++ ds))
  else
    some st2

def lint_module_with (opts : SortImportsOptions) (module : List ImportDecl) :
    Option (List Diagnostic) :=
  (module.foldlM (handle_import_decl opts) (VisitorState.mk [] [])).bind
    (fun st =>
      (sort_line_imports opts st.line_imports).map
        (fun ds => st.diagnostics ++ ds))

/-- `SortImports::lint_module`: a whole rule invocation, with the default
options hard-coded by `SortImportsVisitor::default`. -/
def lint_module (module : List ImportDecl) : Option (List Diagnostic) :=
  lint_module_with default_options module

-- Order facts about the byte-lexicographic comparison

theorem strLtList_irrefl : ∀ l : List Char, strLtList l l = false
  | [] => rfl
  | c :: cs => by simp [strLtList, strLtList_irrefl cs]

theorem strLtList_asymm : ∀ l m : List Char, strLtList l m = true → strLtList m l = false
  | [], [] => by simp [strLtList]
  | [], _ :: _ => by simp [strLtList]
  | _ :: _, [] => by simp [strLtList]
  | c :: cs, d :: ds => by
      by_cases h1 : c.toNat < d.toNat
      · have h2 : ¬ d.toNat < c.toNat := by omega
        simp [strLtList, h1, h2]
      · by_cases h2 : d.toNat < c.toNat
        · simp [strLtList, h1, h2]
        · simp only [strLtList, if_neg h1, if_neg h2]
          exact strLtList_asymm cs ds

theorem strLtList_total : ∀ l m : List Char,
    strLtList l m = false → strLtList m l = false → l = m
  | [], [], _, _ => rfl
  | [], _ :: _, h, _ => by simp [strLtList] at h
  | _ :: _, [], _, h => by simp [strLtList] at h
  | c :: cs, d :: ds, h, h2 => by
      by_cases hcd : c.toNat < d.toNat
      · simp [strLtList, hcd] at h
      · by_cases hdc : d.toNat < c.toNat
        · simp [strLtList, hdc] at h2
        · have hn : c.toNat = d.toNat := by omega
          have hc : c = d := Char.ext (UInt32.toNat.inj (by simpa [Char.toNat] using hn))
          have ht := strLtList_total cs ds
            (by simpa [strLtList, hcd, hdc] using h)
            (by simpa [strLtList, hcd, hdc] using h2)
          rw [hc, ht]

theorem strLt_irrefl (a : String) : strLt a a = false := strLtList_irrefl a.data

theorem strLt_asymm {a b : String} (h : strLt a b = true) : strLt b a = false :=
  strLtList_asymm _ _ h

theorem strLt_total {a b : String} (h : strLt a b = false) (h2 : strLt b a = false) :
    a = b :=
  String.ext (strLtList_total _ _ h h2)

theorem sortStrings_pair (a b : String) :
    sortStrings [a, b] = if strLe a b then [a, b] else [b, a] := by
  show insertStr a (insertStr b (sortStrings [])) = _
  simp only [sortStrings, insertStr]

theorem alpha_viol_eq (names : List String) (i : Nat) :
    alpha_viol names i = strLt (names.getD (i + 1) "") (names.getD i "") := by
  have key : ∀ a c : String,
      decide ((if strLe a c then [a, c] else [c, a]).getD 0 "" ≠ c) = strLt a c := by
    intro a c
    by_cases h : strLe a c = true
    · rw [if_pos h]
      by_cases heq : a = c
      · subst heq
        simp [strLt_irrefl]
      · have hca : strLt c a = false := by simpa [strLe] using h
        have hlt : strLt a c = true := by
          rcases Bool.eq_false_or_eq_true (strLt a c) with ht | hf
          · exact ht
          · exact absurd (strLt_total hf hca) heq
        simp [List.getD_cons_zero, heq, hlt]
    · have hca : strLt c a = true := by simpa [strLe] using h
      rw [if_neg h]
      simp [List.getD_cons_zero, strLt_asymm hca]
  show decide ((sortStrings [names.getD (i + 1) "", names.getD i ""]).getD 0 ""
      ≠ names.getD i "") = strLt (names.getD (i + 1) "") (names.getD i "")
  rw [sortStrings_pair]
  exact key _ _

-- Behaviour of the group-order block

theorem group_check_none (opts : SortImportsOptions) (specs : List ImportIdent)
    (i : Nat) : group_check opts specs none i = GroupStep.fallthrough := by
  simp [group_check]

theorem group_check_ne_panic (opts : SortImportsOptions) (specs : List ImportIdent)
    (rm : Option Bool) (i : Nat)
    (Hall : ∀ v, (get_member_param_grp_index opts v).isSome = true) :
    group_check opts specs rm i ≠ GroupStep.panic := by
  unfold group_check
  split
  · rcases h1 : get_member_param_grp_index opts
        (specs.getD i dummyIdent).import_type with _ | c
    · exact absurd (Hall (specs.getD i dummyIdent).import_type) (by rw [h1]; simp)
    rcases h2 : get_member_param_grp_index opts
        (specs.getD (i + 1) dummyIdent).import_type with _ | d
    · exact absurd (Hall (specs.getD (i + 1) dummyIdent).import_type) (by rw [h2]; simp)
    simp only [h1, h2]
    split <;> simp
  · simp

theorem group_check_fallthrough_of_eq (opts : SortImportsOptions)
    (specs : List ImportIdent) (i p : Nat) (hlen : i + 1 < specs.length)
    (hc : get_member_param_grp_index opts (specs.getD i dummyIdent).import_type = some p)
    (hn : get_member_param_grp_index opts (specs.getD (i + 1) dummyIdent).import_type = some p) :
    group_check opts specs (some true) i = GroupStep.fallthrough := by
  unfold group_check
  rw [if_pos ⟨by simp, by omega⟩, hc, hn]
  simp

theorem group_check_skip_of_ne (opts : SortImportsOptions)
    (specs : List ImportIdent) (i pc pn : Nat) (hlen : i + 1 < specs.length)
    (hc : get_member_param_grp_index opts (specs.getD i dummyIdent).import_type = some pc)
    (hn : get_member_param_grp_index opts (specs.getD (i + 1) dummyIdent).import_type = some pn)
    (hne : pc ≠ pn) :
    group_check opts specs (some true) i = GroupStep.skip (decide (pn < pc)) := by
  unfold group_check
  rw [if_pos ⟨by simp, by omega⟩, hc, hn]
  simp [hne]

-- Closed forms of the scan loop

/-- Indices pushed onto `error_indices` by the loop (in `report_multiple`
mode) while scanning positions `start, start+1, ..., start+cnt-1`. -/
def errs_cf (opts : SortImportsOptions) (specs : List ImportIdent)
    (names : List String) (rm : Option Bool) (start cnt : Nat) : List Nat :=
  (List.range' start cnt).filterMap fun i =>
    if group_check opts specs rm i = GroupStep.fallthrough ∧ i ≠ specs.length - 1
        ∧ alpha_viol names i = true
    then some (i + 1) else none

/-- Indices pushed onto `unexpected_order_indices` by the loop while
scanning positions `start, ..., start+cnt-1`. -/
def unexp_cf (opts : SortImportsOptions) (specs : List ImportIdent)
    (rm : Option Bool) (start cnt : Nat) : List Nat :=
  (List.range' start cnt).filterMap fun i =>
    if group_check opts specs rm i = GroupStep.skip true then some (i + 1) else none

/-- The value of `first_unsorted_index` computed by the loop in member-sort
mode (`report_multiple = none`): one past the first violating position. -/
def first_cf_none (specs : List ImportIdent) (names : List String)
    (start cnt : Nat) : Option Nat :=
  ((List.range' start cnt).find? fun i =>
      decide (i ≠ specs.length - 1) && alpha_viol names i).map (· + 1)

theorem get_err_index_loop_none (opts : SortImportsOptions)
    (specs : List ImportIdent) (names : List String) :
    ∀ (l : List String) (start : Nat) (first : Option Nat) (errs unexp : List Nat),
    get_err_index_loop opts specs names none l start first errs unexp
      = some ((match first_cf_none specs names start l.length with
               | some j => some j
               | none => first), errs, unexp)
  | [], start, first, errs, unexp => by
      simp [get_err_index_loop, first_cf_none]
  | _ :: rest, start, first, errs, unexp => by
      simp only [get_err_index_loop, group_check_none, List.length_cons]
      by_cases hlast : start = specs.length - 1
      · rw [if_neg (by simp [hlast])]
        rw [get_err_index_loop_none opts specs names rest (start + 1) first errs unexp]
        have heq : first_cf_none specs names start (rest.length + 1)
            = first_cf_none specs names (start + 1) rest.length := by
          unfold first_cf_none
          rw [List.range'_succ, List.find?_cons_of_neg _ (by simp [hlast])]
        rw [heq]
      · rw [if_pos hlast]
        by_cases hv : alpha_viol names start = true
        · rw [if_pos hv, if_neg (by simp)]
          have heq : first_cf_none specs names start (rest.length + 1)
              = some (start + 1) := by
            unfold first_cf_none
            rw [List.range'_succ, List.find?_cons_of_pos _ (by simp [hlast, hv])]
            rfl
          rw [heq]
        · rw [if_neg hv]
          rw [get_err_index_loop_none opts specs names rest (start + 1) first errs unexp]
          have heq : first_cf_none specs names start (rest.length + 1)
              = first_cf_none specs names (start + 1) rest.length := by
            unfold first_cf_none
            rw [List.range'_succ, List.find?_cons_of_neg _ (by simp [hv])]
          rw [heq]

theorem get_err_index_loop_some_shape (opts : SortImportsOptions)
    (specs : List ImportIdent) (names : List String) :
    ∀ (l : List String) (start : Nat) (first : Option Nat) (errs unexp : List Nat)
      (out : Option Nat × List Nat × List Nat),
    get_err_index_loop opts specs names (some true) l start first errs unexp = some out →
    out.2.1 = errs ++ errs_cf opts specs names (some true) start l.length
    ∧ out.2.2 = unexp ++ unexp_cf opts specs (some true) start l.length
  | [], start, first, errs, unexp, out => by
      intro h
      simp only [get_err_index_loop, Option.some_inj] at h
      subst h
      simp [errs_cf, unexp_cf]
  | _ :: rest, start, first, errs, unexp, out => by
      intro h
      simp only [get_err_index_loop, List.length_cons] at h
      simp only [List.length_cons]
      have hcf : ∀ keep : Bool,
          (if group_check opts specs (some true) start = GroupStep.fallthrough
              ∧ start ≠ specs.length - 1 ∧ alpha_viol names start = true
           then some (start + 1) else none) = (if keep then some (start + 1) else none) →
          errs_cf opts specs names (some true) start (rest.length + 1)
            = (if keep then [start + 1] else []) ++ errs_cf opts specs names (some true) (start + 1) rest.length := by
        intro keep hk
        unfold errs_cf
        rw [List.range'_succ, List.filterMap_cons, hk]
        cases keep <;> simp
      have hcg : ∀ keep : Bool,
          (if group_check opts specs (some true) start = GroupStep.skip true
           then some (start + 1) else none) = (if keep then some (start + 1) else none) →
          unexp_cf opts specs (some true) start (rest.length + 1)
            = (if keep then [start + 1] else []) ++ unexp_cf opts specs (some true) (start + 1) rest.length := by
        intro keep hk
        unfold unexp_cf
        rw [List.range'_succ, List.filterMap_cons, hk]
        cases keep <;> simp
      rcases hg : group_check opts specs (some true) start with _ | push | _
      · rw [hg] at h
        exact absurd h (by simp)
      · rw [hg] at h
        obtain ⟨h1, h2⟩ := get_err_index_loop_some_shape opts specs names rest (start + 1)
          first errs (if push then unexp ++ [start + 1] else unexp) out h
        refine ⟨?_, ?_⟩
        · rw [h1, hcf false (by simp [hg])]
          simp
        · rw [h2, hcg push (by cases push <;> simp [hg])]
          cases push <;> simp [List.append_assoc]
      · rw [hg] at h
        by_cases hlast : start = specs.length - 1
        · rw [if_neg (by simp [hlast])] at h
          obtain ⟨h1, h2⟩ := get_err_index_loop_some_shape opts specs names rest (start + 1)
            first errs unexp out h
          refine ⟨?_, ?_⟩
          · rw [h1, hcf false (by simp [hlast])]
            simp
          · rw [h2, hcg false (by simp [hg])]
            simp
        · rw [if_pos hlast] at h
          by_cases hv : alpha_viol names start = true
          · rw [if_pos hv, if_pos (by simp)] at h
            obtain ⟨h1, h2⟩ := get_err_index_loop_some_shape opts specs names rest (start + 1)
              (some (start + 1)) (errs ++ [start + 1]) unexp out h
            refine ⟨?_, ?_⟩
            · rw [h1, hcf true (by simp [hg, hlast, hv])]
              simp [List.append_assoc]
            · rw [h2, hcg false (by simp [hg])]
              simp
          · rw [if_neg hv] at h
            obtain ⟨h1, h2⟩ := get_err_index_loop_some_shape opts specs names rest (start + 1)
              first errs unexp out h
            refine ⟨?_, ?_⟩
            · rw [h1, hcf false (by simp [hv])]
              simp
            · rw [h2, hcg false (by simp [hg])]
              simp

theorem get_err_index_loop_isSome (opts : SortImportsOptions)
    (specs : List ImportIdent) (names : List String) (rm : Option Bool)
    (Hall : ∀ v, (get_member_param_grp_index opts v).isSome = true) :
    ∀ (l : List String) (start : Nat) (first : Option Nat) (errs unexp : List Nat),
    (get_err_index_loop opts specs names rm l start first errs unexp).isSome = true
  | [], start, first, errs, unexp => by simp [get_err_index_loop]
  | _ :: rest, start, first, errs, unexp => by
      simp only [get_err_index_loop]
      rcases hg : group_check opts specs rm start with _ | push | _
      · exact absurd hg (group_check_ne_panic opts specs rm start Hall)
      · exact get_err_index_loop_isSome opts specs names rm Hall rest (start + 1)
          first errs (if push then unexp ++ [start + 1] else unexp)
      · by_cases hlast : start = specs.length - 1
        · rw [if_neg (by simp [hlast])]
          exact get_err_index_loop_isSome opts specs names rm Hall rest (start + 1)
            first errs unexp
        · rw [if_pos hlast]
          by_cases hv : alpha_viol names start = true
          · rw [if_pos hv]
            by_cases hr : rm.isSome = true
            · rw [if_pos hr]
              exact get_err_index_loop_isSome opts specs names rm Hall rest (start + 1)
                (some (start + 1)) (errs ++ [start + 1]) unexp
            · rw [if_neg hr]
              simp
          · rw [if_neg hv]
            exact get_err_index_loop_isSome opts specs names rm Hall rest (start + 1)
              first errs unexp

-- get_err_index itself

theorem opt_match_none (o : Option Nat) :
    (match o with | some j => some j | none => (none : Option Nat)) = o := by
  cases o <;> rfl

theorem list_pack_getD (l : List Nat) :
    (if l ≠ [] then some l else none).getD [] = l := by
  by_cases h : l = [] <;> simp [h]

theorem get_err_index_none_eq (opts : SortImportsOptions) (specs : List ImportIdent) :
    get_err_index opts specs none
      = some (first_cf_none specs (specs.map (get_sortable_name opts)) 0 specs.length,
              none, none) := by
  simp only [get_err_index]
  rw [get_err_index_loop_none]
  simp only [List.length_map, Option.map_some']
  rw [opt_match_none]
  simp

theorem get_err_index_some_shape (opts : SortImportsOptions) (specs : List ImportIdent)
    (f : Option Nat) (E U : Option (List Nat))
    (hres : get_err_index opts specs (some true) = some (f, E, U)) :
    E.getD [] = errs_cf opts specs (specs.map (get_sortable_name opts)) (some true) 0
        specs.length
    ∧ U.getD [] = unexp_cf opts specs (some true) 0 specs.length := by
  simp only [get_err_index] at hres
  rcases hout : get_err_index_loop opts specs (specs.map (get_sortable_name opts))
      (some true) (specs.map (get_sortable_name opts)) 0 none [] [] with _ | out
  · rw [hout] at hres
    simp at hres
  · rw [hout] at hres
    simp only [Option.map_some', Option.some_inj] at hres
    obtain ⟨h1, h2⟩ := get_err_index_loop_some_shape opts specs
      (specs.map (get_sortable_name opts)) (specs.map (get_sortable_name opts))
      0 none [] [] out hout
    have hE := congrArg (fun t : Option Nat × Option (List Nat) × Option (List Nat) => t.2.1) hres
    have hU := congrArg (fun t : Option Nat × Option (List Nat) × Option (List Nat) => t.2.2) hres
    simp only at hE hU
    rw [← hE, ← hU, list_pack_getD, list_pack_getD, h1, h2]
    simp [List.length_map]

theorem sort_line_imports_shape (opts : SortImportsOptions) (specs : List ImportIdent)
    (f : Option Nat) (E U : Option (List Nat))
    (hres : get_err_index opts specs (some true) = some (f, E, U)) :
    sort_line_imports opts specs
      = some ((E.getD []).map (alpha_diag specs) ++ (U.getD []).map (group_diag specs)) := by
  unfold sort_line_imports
  rw [hres]
  simp only [Option.map_some']
  congr 1
  cases E <;> cases U <;> simp

-- Facts about the closed-form index lists

theorem pairwise_lt_range1 : ∀ (n s : Nat), (List.range' s n).Pairwise (· < ·)
  | 0, _ => by simp
  | n + 1, s => by
      rw [List.range'_succ]
      refine List.Pairwise.cons (fun m hm => ?_) (pairwise_lt_range1 n (s + 1))
      obtain ⟨i, _, rfl⟩ := List.mem_range'.1 hm
      omega

theorem cf_pairwise (f : Nat → Option Nat) (hf : ∀ i j, f i = some j → j = i + 1)
    (s n : Nat) : ((List.range' s n).filterMap f).Pairwise (· < ·) := by
  refine List.Pairwise.filterMap f ?_ (pairwise_lt_range1 n s)
  intro a b hab x hx y hy
  rw [hf a x hx, hf b y hy]
  omega

theorem cf_nodup (f : Nat → Option Nat) (hf : ∀ i j, f i = some j → j = i + 1)
    (s n : Nat) : ((List.range' s n).filterMap f).Nodup :=
  (cf_pairwise f hf s n).imp Nat.ne_of_lt

theorem errs_cf_pairwise (opts : SortImportsOptions) (specs : List ImportIdent)
    (names : List String) (rm : Option Bool) (start cnt : Nat) :
    (errs_cf opts specs names rm start cnt).Pairwise (· < ·) :=
  cf_pairwise _ (fun i j h => by
    split at h
    · exact (Option.some_inj.1 h).symm
    · exact absurd h (by simp)) start cnt

theorem unexp_cf_pairwise (opts : SortImportsOptions) (specs : List ImportIdent)
    (rm : Option Bool) (start cnt : Nat) :
    (unexp_cf opts specs rm start cnt).Pairwise (· < ·) :=
  cf_pairwise _ (fun i j h => by
    split at h
    · exact (Option.some_inj.1 h).symm
    · exact absurd h (by simp)) start cnt

theorem mem_errs_cf_iff (opts : SortImportsOptions) (specs : List ImportIdent)
    (names : List String) (rm : Option Bool) (cnt i : Nat) (hi : i < cnt) :
    ((i + 1) ∈ errs_cf opts specs names rm 0 cnt)
      ↔ (group_check opts specs rm i = GroupStep.fallthrough ∧ i ≠ specs.length - 1
          ∧ alpha_viol names i = true) := by
  unfold errs_cf
  rw [List.mem_filterMap]
  constructor
  · rintro ⟨a, _, hfa⟩
    split at hfa
    · next hcond =>
        obtain rfl : a = i := by
          have := Option.some_inj.1 hfa
          omega
        exact hcond
    · exact absurd hfa (by simp)
  · intro hcond
    exact ⟨i, List.mem_range'.2 ⟨i, hi, by omega⟩, by rw [if_pos hcond]⟩

theorem mem_unexp_cf_iff (opts : SortImportsOptions) (specs : List ImportIdent)
    (rm : Option Bool) (cnt i : Nat) (hi : i < cnt) :
    ((i + 1) ∈ unexp_cf opts specs rm 0 cnt)
      ↔ group_check opts specs rm i = GroupStep.skip true := by
  unfold unexp_cf
  rw [List.mem_filterMap]
  constructor
  · rintro ⟨a, _, hfa⟩
    split at hfa
    · next hcond =>
        obtain rfl : a = i := by
          have := Option.some_inj.1 hfa
          omega
        exact hcond
    · exact absurd hfa (by simp)
  · intro hcond
    exact ⟨i, List.mem_range'.2 ⟨i, hi, by omega⟩, by rw [if_pos hcond]⟩

theorem find?_range'_minimal (p : Nat → Bool) :
    ∀ (n s a : Nat), (List.range' s n).find? p = some a →
      p a = true ∧ s ≤ a ∧ a < s + n ∧ ∀ j, s ≤ j → j < a → p j = false
  | 0, s, a => by simp
  | n + 1, s, a => by
      rw [List.range'_succ]
      intro h
      by_cases hp : p s = true
      · rw [List.find?_cons_of_pos _ hp] at h
        obtain rfl : s = a := Option.some_inj.1 h
        exact ⟨hp, Nat.le_refl _, by omega, fun j hj hj2 => absurd hj2 (by omega)⟩
      · rw [List.find?_cons_of_neg _ hp] at h
        obtain ⟨h1, h2, h3, h4⟩ := find?_range'_minimal p n (s + 1) a h
        refine ⟨h1, by omega, by omega, fun j hj hjlt => ?_⟩
        rcases Nat.eq_or_lt_of_le hj with rfl | hlt
        · exact Bool.not_eq_true _ ▸ (by simpa using hp)
        · exact h4 j hlt hjlt

theorem names_getD (opts : SortImportsOptions) (specs : List ImportIdent) (j : Nat)
    (h : j < specs.length) :
    (specs.map (get_sortable_name opts)).getD j ""
      = get_sortable_name opts (specs.getD j dummyIdent) := by
  rw [List.getD_eq_getElem?_getD, List.getD_eq_getElem?_getD, List.getElem?_map,
    List.getElem?_eq_getElem h]
  simp

-- Member-order checker closed form

/-- What `sort_import_decl` emits for one statement's member list. -/
def member_out_decl (opts : SortImportsOptions) (vec : List ImportIdent) :
    List Diagnostic :=
  if opts.ignore_member_sort then []
  else
    match first_cf_none vec (vec.map (get_sortable_name opts)) 0 vec.length with
    | some index => [member_diag vec index]
    | none => []

theorem sort_import_decl_eq (opts : SortImportsOptions) (vec : List ImportIdent) :
    sort_import_decl opts vec = some (member_out_decl opts vec) := by
  unfold sort_import_decl member_out_decl
  by_cases h : opts.ignore_member_sort
  · rw [h]
    simp
  · rw [Bool.not_eq_true] at h
    rw [h]
    simp only [Bool.not_false, if_true, if_false, Bool.false_eq_true]
    rw [get_err_index_none_eq]
    rfl

-- Classifier lemmas

theorem handle_specifiers_named (import_stmt : ImportDecl) :
    ∀ (l : List (String × Nat)) (index : Nat) (vec : List ImportIdent)
      (ident : ImportIdent), index ≠ 0 →
    handle_specifiers import_stmt index vec ident
        (l.map (fun p => ImportSpecifier.Named p.1 p.2))
      = (vec ++ l.map (fun p => ImportIdent.mk p.1 p.2
            (if import_stmt.specifiers.length > 1 then ImportTypes.Multiple
             else ImportTypes.Single)), ident)
  | [], index, vec, ident, _ => by simp [handle_specifiers]
  | p :: rest, index, vec, ident, h => by
      simp only [List.map_cons, handle_specifiers, if_neg h]
      rw [handle_specifiers_named import_stmt rest (index + 1) _ ident (by omega)]
      simp

theorem handle_specifiers_fst (import_stmt : ImportDecl) :
    ∀ (l : List ImportSpecifier) (index : Nat) (vec : List ImportIdent)
      (ident : ImportIdent),
    (handle_specifiers import_stmt index vec ident l).1
      = vec ++ l.filterMap (fun s =>
          match s with
          | ImportSpecifier.Named sym sp => some (ImportIdent.mk sym sp
              (if import_stmt.specifiers.length > 1 then ImportTypes.Multiple
               else ImportTypes.Single))
          | _ => none)
  | [], _, vec, _ => by simp [handle_specifiers]
  | ImportSpecifier.Named sym sp :: rest, index, vec, ident => by
      simp only [handle_specifiers, List.filterMap_cons]
      rw [handle_specifiers_fst import_stmt rest (index + 1) _ _]
      simp
  | ImportSpecifier.Default sym :: rest, index, vec, ident => by
      simp only [handle_specifiers, List.filterMap_cons]
      rw [handle_specifiers_fst import_stmt rest (index + 1) _ _]
  | ImportSpecifier.Namespace sym :: rest, index, vec, ident => by
      simp only [handle_specifiers, List.filterMap_cons]
      rw [handle_specifiers_fst import_stmt rest (index + 1) _ _]

-- Whole-invocation decomposition

/-- The member-order diagnostics one statement contributes during
traversal. -/
def member_out (opts : SortImportsOptions) (stmt : ImportDecl) : List Diagnostic :=
  if opts.ignore_declaration_sort then []
  else member_out_decl opts (classify_specifiers stmt).1

theorem handle_import_decl_eq (opts : SortImportsOptions) (st : VisitorState)
    (stmt : ImportDecl) :
    handle_import_decl opts st stmt
      = some (VisitorState.mk (st.line_imports ++ [(classify_specifiers stmt).2])
          (st.diagnostics ++ member_out opts stmt)) := by
  unfold handle_import_decl member_out
  by_cases h : opts.ignore_declaration_sort
  · rw [h]
    simp
  · rw [Bool.not_eq_true] at h
    rw [h]
    simp only [Bool.not_false, if_true, if_false, Bool.false_eq_true]
    rw [sort_import_decl_eq]
    rfl

theorem foldlM_handle_eq (opts : SortImportsOptions) :
    ∀ (module : List ImportDecl) (st : VisitorState),
    module.foldlM (handle_import_decl opts) st
      = some (VisitorState.mk
          (st.line_imports ++ module.map (fun d => (classify_specifiers d).2))
          (st.diagnostics ++ (module.map (member_out opts)).flatten))
  | [], st => by simp [List.foldlM]
  | d :: rest, st => by
      simp only [List.foldlM, handle_import_decl_eq, Option.bind_eq_bind,
        Option.some_bind, List.map_cons, List.flatten]
      rw [foldlM_handle_eq opts rest]
      simp [List.append_assoc]

theorem lint_module_with_eq (opts : SortImportsOptions) (module : List ImportDecl) :
    lint_module_with opts module
      = (sort_line_imports opts (module.map (fun d => (classify_specifiers d).2))).map
          (fun ds => (module.map (member_out opts)).flatten ++ ds) := by
  unfold lint_module_with
  rw [foldlM_handle_eq]
  simp [Option.bind]

-- The two skip flags do not influence the statement-order checker

/-- Options with the two skip flags replaced, other fields untouched. -/
def set_sort_flags (opts : SortImportsOptions) (b1 b2 : Bool) : SortImportsOptions :=
  SortImportsOptions.mk opts.ignore_case b1 b2 opts.member_syntax_sort_order

theorem group_check_flags (opts : SortImportsOptions) (b1 b2 : Bool)
    (specs : List ImportIdent) (rm : Option Bool) (i : Nat) :
    group_check (set_sort_flags opts b1 b2) specs rm i = group_check opts specs rm i := rfl

theorem get_sortable_name_flags (opts : SortImportsOptions) (b1 b2 : Bool) :
    get_sortable_name (set_sort_flags opts b1 b2) = get_sortable_name opts := rfl

theorem get_err_index_loop_flags (opts : SortImportsOptions) (b1 b2 : Bool)
    (specs : List ImportIdent) (names : List String) (rm : Option Bool) :
    ∀ (l : List String) (start : Nat) (first : Option Nat) (errs unexp : List Nat),
    get_err_index_loop (set_sort_flags opts b1 b2) specs names rm l start first errs unexp
      = get_err_index_loop opts specs names rm l start first errs unexp
  | [], _, _, _, _ => rfl
  | _ :: rest, start, first, errs, unexp => by
      simp only [get_err_index_loop, group_check_flags]
      rcases group_check opts specs rm start with _ | push | _
      · rfl
      · exact get_err_index_loop_flags opts b1 b2 specs names rm rest (start + 1)
          first errs (if push then unexp ++ [start + 1] else unexp)
      · by_cases hlast : start = specs.length - 1
        · rw [if_neg (by simp [hlast]), if_neg (by simp [hlast])]
          exact get_err_index_loop_flags opts b1 b2 specs names rm rest (start + 1)
            first errs unexp
        · rw [if_pos hlast, if_pos hlast]
          by_cases hv : alpha_viol names start = true
          · rw [if_pos hv, if_pos hv]
            by_cases hr : rm.isSome = true
            · rw [if_pos hr, if_pos hr]
              exact get_err_index_loop_flags opts b1 b2 specs names rm rest (start + 1)
                (some (start + 1)) (errs ++ [start + 1]) unexp
            · rw [if_neg hr, if_neg hr]
          · rw [if_neg hv, if_neg hv]
            exact get_err_index_loop_flags opts b1 b2 specs names rm rest (start + 1)
              first errs unexp

theorem get_err_index_flags (opts : SortImportsOptions) (b1 b2 : Bool)
    (specs : List ImportIdent) (rm : Option Bool) :
    get_err_index (set_sort_flags opts b1 b2) specs rm = get_err_index opts specs rm := by
  unfold get_err_index
  rw [get_sortable_name_flags]
  exact congrArg
    (Option.map (fun r : Option Nat × List Nat × List Nat =>
      (r.1, if r.2.1 ≠ [] then some r.2.1 else none,
       if r.2.2 ≠ [] then some r.2.2 else none)))
    (get_err_index_loop_flags opts b1 b2 specs
      (specs.map (get_sortable_name opts)) rm (specs.map (get_sortable_name opts))
      0 none [] [])

theorem sort_line_imports_flags (opts : SortImportsOptions) (b1 b2 : Bool)
    (line_imports : List ImportIdent) :
    sort_line_imports (set_sort_flags opts b1 b2) line_imports
      = sort_line_imports opts line_imports := by
  unfold sort_line_imports
  rw [get_err_index_flags]

-- Claims

/-- Claim C8: the configuration resolver maps the four recognized tokens
"none", "all", "multiple", "single" to their kinds, maps every unrecognized
token to `None` without failing, and the defaults are the three booleans
`false` and the group order `[None, All (namespace), Multiple, Single]`. -/
theorem claim_C8 :
    str_to_import_types "none" = ImportTypes.None
    ∧ str_to_import_types "all" = ImportTypes.All
    ∧ str_to_import_types "multiple" = ImportTypes.Multiple
    ∧ str_to_import_types "single" = ImportTypes.Single
    ∧ (∀ s : String, s ≠ "none" → s ≠ "all" → s ≠ "multiple" → s ≠ "single" →
        str_to_import_types s = ImportTypes.None)
    ∧ default_options.ignore_case = false
    ∧ default_options.ignore_declaration_sort = false
    ∧ default_options.ignore_member_sort = false
    ∧ default_options.member_syntax_sort_order
        = [ImportTypes.None, ImportTypes.All, ImportTypes.Multiple, ImportTypes.Single] := by
  refine ⟨by decide, by decide, by decide, by decide, ?_, rfl, rfl, rfl, by decide⟩
  intro s h1 h2 h3 h4
  unfold str_to_import_types
  rw [if_neg h1, if_neg h2, if_neg h3, if_neg h4]

/-- Claim C8 witness: an unrecognized token resolves to the `None` group. -/
theorem claim_C8_witness : str_to_import_types "imports" = ImportTypes.None := by
  have h := claim_C8
  exact h.2.2.2.2.1 "imports" (by decide) (by decide) (by decide) (by decide)

/-- Statement mixing a default specifier with one named specifier, the
shape on which the classifier's record provably comes from the default
(first) specifier, not the last one. -/
def c2_stmt : ImportDecl :=
  ImportDecl.mk 5 [ImportSpecifier.Default "d", ImportSpecifier.Named "a" 7]

/-- Claim C2 counterexample: for the mixed statement `c2_stmt` the last
specifier in source order is the named specifier binding "a", yet the
produced record has `sortKey = "d"` (the default specifier's name) and
`kind = Single`, not the named specifier's key "a" nor the kind `Multiple`
that the named specifier of this two-specifier statement receives. -/
theorem claim_C2_counterexample :
    (classify_specifiers c2_stmt).2 = ImportIdent.mk "d" 5 ImportTypes.Single
    ∧ c2_stmt.specifiers.getLast? = some (ImportSpecifier.Named "a" 7)
    ∧ ("d" : String) ≠ "a"
    ∧ ImportTypes.Single ≠ ImportTypes.Multiple := by
  exact ⟨by decide, by decide, by decide, by decide⟩

/-- Claim C2 (amended): for every statement consisting of a default
specifier followed by named specifiers, the record's kind and sortKey come
from the default specifier: `kind = Single`, `sortKey` = the default's
bound name (a named specifier updates the statement record only when it is
at index 0, which a default-first mixed statement never allows). -/
theorem claim_C2_amended (span : Nat) (d : String) (namedList : List (String × Nat)) :
    (classify_specifiers (ImportDecl.mk span
        (ImportSpecifier.Default d ::
          namedList.map (fun p => ImportSpecifier.Named p.1 p.2)))).2
      = ImportIdent.mk d span ImportTypes.Single := by
  unfold classify_specifiers
  simp only [handle_specifiers]
  rw [handle_specifiers_named _ namedList (0 + 1) _ _ (by omega)]

/-- Claim C7: a statement whose specifiers are two or more named
specifiers (and nothing else) is classified `kind = Multiple` with
`sortKey` the first named specifier's bound name, and every named
specifier becomes one member record; a statement with no specifiers is
classified `kind = None` with `sortKey = ""`. -/
theorem claim_C7 (span : Nat) (s0 s1 : String × Nat) (rest : List (String × Nat)) :
    classify_specifiers (ImportDecl.mk span
        ((s0 :: s1 :: rest).map (fun p => ImportSpecifier.Named p.1 p.2)))
      = ((s0 :: s1 :: rest).map (fun p => ImportIdent.mk p.1 p.2 ImportTypes.Multiple),
         ImportIdent.mk s0.1 span ImportTypes.Multiple)
    ∧ classify_specifiers (ImportDecl.mk span [])
        = ([], ImportIdent.mk "" span ImportTypes.None) := by
  constructor
  · have h2 : 1 < (ImportSpecifier.Named s0.1 s0.2 :: ImportSpecifier.Named s1.1 s1.2 ::
        rest.map (fun p => ImportSpecifier.Named p.1 p.2)).length := by
      simp
    unfold classify_specifiers
    simp only [List.map_cons, handle_specifiers]
    rw [handle_specifiers_named _ rest (0 + 1 + 1) _ _ (by omega)]
    simp [h2]
  · rfl

/-- Claim C10: every named specifier is classified `Multiple` exactly when
its statement has more than one specifier of any shape, `Single` when it
is the sole specifier; in particular one named specifier next to a default
specifier yields a `Multiple` member record. -/
theorem claim_C10 (import_stmt : ImportDecl) :
    (classify_specifiers import_stmt).1
      = import_stmt.specifiers.filterMap (fun s =>
          match s with
          | ImportSpecifier.Named sym sp => some (ImportIdent.mk sym sp
              (if import_stmt.specifiers.length > 1 then ImportTypes.Multiple
               else ImportTypes.Single))
          | _ => none)
    ∧ (classify_specifiers (ImportDecl.mk 0
          [ImportSpecifier.Default "d", ImportSpecifier.Named "s" 1])).1
        = [ImportIdent.mk "s" 1 ImportTypes.Multiple] := by
  constructor
  · unfold classify_specifiers
    rw [handle_specifiers_fst]
    simp
  · decide

theorem getD_eq_get_str (l : List String) (j : Nat) (h : j < l.length) :
    l.getD j "" = l.get ⟨j, h⟩ := by
  rw [List.getD_eq_getElem?_getD, List.getElem?_eq_getElem h]
  simp

/-- Claim C5: with member sorting enabled, the member-order checker
reports exactly what the first-violation scan finds: a single diagnostic
at the first (lowest-index) unsorted member, naming that member; the
reported index is a genuine first violation (its key sorts strictly
before its predecessor's and no earlier adjacent pair violates); and a
statement whose member keys are already sorted produces no diagnostic. -/
theorem claim_C5 (opts : SortImportsOptions) (vec : List ImportIdent)
    (h : opts.ignore_member_sort = false) :
    sort_import_decl opts vec
      = some (match first_cf_none vec (vec.map (get_sortable_name opts)) 0 vec.length with
              | some index => [member_diag vec index]
              | none => [])
    ∧ (∀ index,
        first_cf_none vec (vec.map (get_sortable_name opts)) 0 vec.length = some index →
        1 ≤ index ∧ index < vec.length
        ∧ strLt ((vec.map (get_sortable_name opts)).getD index "")
            ((vec.map (get_sortable_name opts)).getD (index - 1) "") = true
        ∧ ∀ j, j + 1 < index →
            strLt ((vec.map (get_sortable_name opts)).getD (j + 1) "")
              ((vec.map (get_sortable_name opts)).getD j "") = false)
    ∧ ((vec.map (get_sortable_name opts)).Chain' (fun a b => strLt b a = false) →
        sort_import_decl opts vec = some []) := by
  have hmain : sort_import_decl opts vec
      = some (match first_cf_none vec (vec.map (get_sortable_name opts)) 0 vec.length with
              | some index => [member_diag vec index]
              | none => []) := by
    rw [sort_import_decl_eq]
    unfold member_out_decl
    rw [h]
    simp
  refine ⟨hmain, ?_, ?_⟩
  · intro index hfi
    unfold first_cf_none at hfi
    obtain ⟨a, ha, hai⟩ := Option.map_eq_some'.1 hfi
    obtain ⟨hp, _, hlt, hmin⟩ := find?_range'_minimal _ vec.length 0 a ha
    rw [Bool.and_eq_true] at hp
    obtain ⟨hne, hv⟩ := hp
    have hnea : a ≠ vec.length - 1 := by simpa using hne
    have hvlt := (alpha_viol_eq (vec.map (get_sortable_name opts)) a).symm.trans hv
    subst hai
    refine ⟨by omega, by omega, ?_, ?_⟩
    · simpa using hvlt
    · intro j hj
      have hj2 := hmin j (by omega) (by omega)
      have hjne : j ≠ vec.length - 1 := by omega
      have hdj : decide (j ≠ vec.length - 1) = true := by simpa using hjne
      rw [hdj, Bool.true_and] at hj2
      rw [← alpha_viol_eq]
      exact hj2
  · intro hchain
    have hnone : first_cf_none vec (vec.map (get_sortable_name opts)) 0 vec.length
        = none := by
      unfold first_cf_none
      rw [Option.map_eq_none']
      rw [List.find?_eq_none]
      intro x hx
      obtain ⟨i, hi, hxi⟩ := List.mem_range'.1 hx
      obtain rfl : x = i := by omega
      by_cases hxe : x = vec.length - 1
      · simp [hxe]
      · have hilen : x + 1 < (vec.map (get_sortable_name opts)).length := by
          simp only [List.length_map]
          omega
        have hadj := List.chain'_iff_get.1 hchain x
          (by simp only [List.length_map]; omega)
        simp only [Bool.and_eq_true, decide_eq_true_eq, not_and]
        intro _
        rw [alpha_viol_eq]
        rw [getD_eq_get_str _ _ hilen,
          getD_eq_get_str _ _ (by simp only [List.length_map]; omega)]
        rw [Bool.not_eq_true]
        exact hadj
    rw [hmain, hnone]

/-- Member list of the repository's own member-sort test
`import {b, a, d, c} from 'foo.js'`. -/
def c5_vec : List ImportIdent :=
  [ImportIdent.mk "b" 0 ImportTypes.Multiple, ImportIdent.mk "a" 1 ImportTypes.Multiple,
   ImportIdent.mk "d" 2 ImportTypes.Multiple, ImportIdent.mk "c" 3 ImportTypes.Multiple]

/-- Claim C5 witness: under the default options the unsorted member list
of `c5_vec` yields exactly the single diagnostic naming member "a". -/
theorem claim_C5_witness :
    default_options.ignore_member_sort = false
    ∧ sort_import_decl default_options c5_vec = some [member_diag c5_vec 1] := by
  refine ⟨rfl, ?_⟩
  rw [(claim_C5 default_options c5_vec rfl).1]
  decide

/-- Claim C6: `ignore_member_sort = true` suppresses every member-order
diagnostic regardless of member disorder; the two skip flags have no
effect on the statement-order checker; and every invocation runs the
statement-order checker once over the complete record sequence. -/
theorem claim_C6 :
    (∀ (opts : SortImportsOptions) (vec : List ImportIdent),
        opts.ignore_member_sort = true → sort_import_decl opts vec = some [])
    ∧ (∀ (opts : SortImportsOptions) (b1 b2 : Bool) (line_imports : List ImportIdent),
        sort_line_imports (set_sort_flags opts b1 b2) line_imports
          = sort_line_imports opts line_imports)
    ∧ (∀ (opts : SortImportsOptions) (module : List ImportDecl),
        lint_module_with opts module
          = (sort_line_imports opts
              (module.map (fun d => (classify_specifiers d).2))).map
              (fun ds => (module.map (member_out opts)).flatten ++ ds)) := by
  refine ⟨?_, ?_, ?_⟩
  · intro opts vec h
    rw [sort_import_decl_eq]
    unfold member_out_decl
    rw [if_pos h]
  · intro opts b1 b2 line_imports
    exact sort_line_imports_flags opts b1 b2 line_imports
  · intro opts module
    exact lint_module_with_eq opts module

/-- Claim C6 witness: the three parts at concrete inputs. -/
theorem claim_C6_witness :
    sort_import_decl (set_sort_flags default_options false true) c5_vec = some []
    ∧ sort_line_imports (set_sort_flags default_options true true) c5_vec
        = sort_line_imports default_options c5_vec
    ∧ lint_module_with default_options []
        = (sort_line_imports default_options
            (([] : List ImportDecl).map (fun d => (classify_specifiers d).2))).map
            (fun ds => (([] : List ImportDecl).map (member_out default_options)).flatten ++ ds) :=
  ⟨claim_C6.1 (set_sort_flags default_options false true) c5_vec rfl,
   claim_C6.2.1 default_options true true c5_vec,
   claim_C6.2.2 default_options []⟩

/-- Claim C9: under the default configuration every group-index lookup
succeeds, and a whole rule invocation completes without a runtime failure
on every input module, producing some list of diagnostics. -/
theorem claim_C9 :
    (∀ v : ImportTypes, (get_member_param_grp_index default_options v).isSome = true)
    ∧ ∀ module : List ImportDecl, ∃ ds, lint_module module = some ds := by
  have Hall : ∀ v : ImportTypes,
      (get_member_param_grp_index default_options v).isSome = true := by
    intro v
    cases v <;> decide
  refine ⟨Hall, fun module => ?_⟩
  unfold lint_module
  rw [lint_module_with_eq]
  have hloop := get_err_index_loop_isSome default_options
    (module.map (fun d => (classify_specifiers d).2))
    ((module.map (fun d => (classify_specifiers d).2)).map (get_sortable_name default_options))
    (some true) Hall
    ((module.map (fun d => (classify_specifiers d).2)).map (get_sortable_name default_options))
    0 none [] []
  obtain ⟨out, hout⟩ := Option.isSome_iff_exists.1 hloop
  have hg : get_err_index default_options
      (module.map (fun d => (classify_specifiers d).2)) (some true)
      = some (out.1, if out.2.1 ≠ [] then some out.2.1 else none,
              if out.2.2 ≠ [] then some out.2.2 else none) := by
    simp only [get_err_index]
    rw [hout]
    rfl
  unfold sort_line_imports
  rw [hg]
  exact ⟨_, rfl⟩

/-- Claim C3: for an adjacent pair of records in the same group (both
group-order lookups give the same index `p`), the statement-order checker
records the index `i + 1` in the error list exactly once when `next`'s
comparison key sorts strictly before `current`'s and not at all otherwise
(equal keys report nothing), and every such violation yields the
alphabetical diagnostic at `next`'s location in the checker's output. -/
theorem claim_C3 (opts : SortImportsOptions) (specs : List ImportIdent) (i p : Nat)
    (f : Option Nat) (E U : Option (List Nat))
    (hres : get_err_index opts specs (some true) = some (f, E, U))
    (hlen : i + 1 < specs.length)
    (hc : get_member_param_grp_index opts (specs.getD i dummyIdent).import_type = some p)
    (hn : get_member_param_grp_index opts
        (specs.getD (i + 1) dummyIdent).import_type = some p) :
    (E.getD []).count (i + 1)
      = (if strLt (get_sortable_name opts (specs.getD (i + 1) dummyIdent))
              (get_sortable_name opts (specs.getD i dummyIdent)) = true then 1 else 0)
    ∧ (strLt (get_sortable_name opts (specs.getD (i + 1) dummyIdent))
          (get_sortable_name opts (specs.getD i dummyIdent)) = true →
        alpha_diag specs (i + 1) ∈ (sort_line_imports opts specs).getD []) := by
  obtain ⟨hE, hU⟩ := get_err_index_some_shape opts specs f E U hres
  have hfall := group_check_fallthrough_of_eq opts specs i p hlen hc hn
  have hkey : alpha_viol (specs.map (get_sortable_name opts)) i
      = strLt (get_sortable_name opts (specs.getD (i + 1) dummyIdent))
          (get_sortable_name opts (specs.getD i dummyIdent)) := by
    rw [alpha_viol_eq, names_getD opts specs (i + 1) hlen,
      names_getD opts specs i (by omega)]
  have hmem : ((i + 1) ∈ E.getD [])
      ↔ strLt (get_sortable_name opts (specs.getD (i + 1) dummyIdent))
          (get_sortable_name opts (specs.getD i dummyIdent)) = true := by
    rw [hE, mem_errs_cf_iff opts specs _ (some true) specs.length i (by omega)]
    constructor
    · rintro ⟨_, _, hv⟩
      rw [← hkey]
      exact hv
    · intro hv
      exact ⟨hfall, by omega, by rw [hkey]; exact hv⟩
  have hnodup : (E.getD []).Nodup := by
    rw [hE]
    exact (errs_cf_pairwise opts specs _ (some true) 0 specs.length).imp Nat.ne_of_lt
  constructor
  · rw [List.count_eq_of_nodup hnodup]
    by_cases hv : strLt (get_sortable_name opts (specs.getD (i + 1) dummyIdent))
        (get_sortable_name opts (specs.getD i dummyIdent)) = true
    · rw [if_pos (hmem.2 hv), if_pos hv]
    · rw [if_neg (fun hm => hv (hmem.1 hm)), if_neg hv]
  · intro hv
    rw [sort_line_imports_shape opts specs f E U hres]
    simp only [Option.getD_some]
    exact List.mem_append_left _ (List.mem_map_of_mem _ (hmem.2 hv))

/-- Same-group record pair with the later key sorting strictly before the
earlier one, `import b ...; import a ...`. -/
def c3_specs : List ImportIdent :=
  [ImportIdent.mk "b" 0 ImportTypes.Single, ImportIdent.mk "a" 1 ImportTypes.Single]

/-- Claim C3 witness: the theorem applied to `c3_specs` at pair index 0,
with both records in group 3 (`Single`). -/
theorem claim_C3_witness :
    ((some [1] : Option (List Nat)).getD []).count 1
      = (if strLt (get_sortable_name default_options (c3_specs.getD 1 dummyIdent))
              (get_sortable_name default_options (c3_specs.getD 0 dummyIdent)) = true
         then 1 else 0)
    ∧ (strLt (get_sortable_name default_options (c3_specs.getD 1 dummyIdent))
          (get_sortable_name default_options (c3_specs.getD 0 dummyIdent)) = true →
        alpha_diag c3_specs 1 ∈ (sort_line_imports default_options c3_specs).getD []) :=
  claim_C3 default_options c3_specs 0 3 (some 1) (some [1]) none
    (by decide) (by decide) (by decide) (by decide)

/-- Claim C4: for an adjacent pair of records whose group indices `pc`
(current) and `pn` (next) differ, the checker records a group-order
violation at `i + 1` exactly once when `pn < pc` and never when
`pn > pc`; the pair contributes no alphabetical violation in either case;
and when `pn < pc` the output contains the diagnostic at `next`'s
location whose message names next's kind before current's kind. -/
theorem claim_C4 (opts : SortImportsOptions) (specs : List ImportIdent)
    (i pc pn : Nat) (f : Option Nat) (E U : Option (List Nat))
    (hres : get_err_index opts specs (some true) = some (f, E, U))
    (hlen : i + 1 < specs.length)
    (hc : get_member_param_grp_index opts (specs.getD i dummyIdent).import_type = some pc)
    (hn : get_member_param_grp_index opts
        (specs.getD (i + 1) dummyIdent).import_type = some pn)
    (hne : pc ≠ pn) :
    (U.getD []).count (i + 1) = (if pn < pc then 1 else 0)
    ∧ (i + 1) ∉ E.getD []
    ∧ (pn < pc → group_diag specs (i + 1) ∈ (sort_line_imports opts specs).getD []) := by
  obtain ⟨hE, hU⟩ := get_err_index_some_shape opts specs f E U hres
  have hskip := group_check_skip_of_ne opts specs i pc pn hlen hc hn hne
  have hmemU : ((i + 1) ∈ U.getD []) ↔ pn < pc := by
    rw [hU, mem_unexp_cf_iff opts specs (some true) specs.length i (by omega), hskip]
    simp
  have hnodupU : (U.getD []).Nodup := by
    rw [hU]
    exact (unexp_cf_pairwise opts specs (some true) 0 specs.length).imp Nat.ne_of_lt
  have hnotE : (i + 1) ∉ E.getD [] := by
    rw [hE]
    intro hm
    obtain ⟨hfall, _, _⟩ :=
      (mem_errs_cf_iff opts specs _ (some true) specs.length i (by omega)).1 hm
    rw [hskip] at hfall
    exact absurd hfall (by simp)
  refine ⟨?_, hnotE, ?_⟩
  · rw [List.count_eq_of_nodup hnodupU]
    by_cases hlt : pn < pc
    · rw [if_pos (hmemU.2 hlt), if_pos hlt]
    · rw [if_neg (fun hm => hlt (hmemU.1 hm)), if_neg hlt]
  · intro hlt
    rw [sort_line_imports_shape opts specs f E U hres]
    simp only [Option.getD_some]
    exact List.mem_append_right _ (List.mem_map_of_mem _ (hmemU.2 hlt))

/-- Record pair in different groups in inverted order (a `Single` record
then a side-effect record): current group `Single` (index 3), next group
`None` (index 0). -/
def c4_specs : List ImportIdent :=
  [ImportIdent.mk "a" 0 ImportTypes.Single, ImportIdent.mk "" 1 ImportTypes.None]

/-- Claim C4 witness: the theorem applied to `c4_specs` at pair index 0
with group indices 3 (current) and 0 (next). -/
theorem claim_C4_witness :
    ((some [1] : Option (List Nat)).getD []).count 1 = (if 0 < 3 then 1 else 0)
    ∧ (1 : Nat) ∉ ((none : Option (List Nat)).getD [])
    ∧ ((0 : Nat) < 3 → group_diag c4_specs 1
        ∈ (sort_line_imports default_options c4_specs).getD []) :=
  claim_C4 default_options c4_specs 0 3 0 none none (some [1])
    (by decide) (by decide) (by decide) (by decide) (by decide)

/-- Input module for the emission-order counterexample: a `Single`-kind
statement binding "b" at span 0, a side-effect (`None`) statement at span
10, then `Single`-kind statements binding "b" at span 20 and "a" at 30. -/
def c1_module : List ImportDecl :=
  [ImportDecl.mk 0 [ImportSpecifier.Default "b"],
   ImportDecl.mk 10 [],
   ImportDecl.mk 20 [ImportSpecifier.Default "b"],
   ImportDecl.mk 30 [ImportSpecifier.Default "a"]]

/-- Claim C1 counterexample: on `c1_module` (statement spans strictly
ascending: 0, 10, 20, 30) the rule emits the alphabetical diagnostic at
span 30 before the group-order diagnostic at span 10, so a diagnostic for
a later source position is emitted before one for an earlier position. -/
theorem claim_C1_counterexample :
    lint_module c1_module
      = some [Diagnostic.mk 30 "sort-imports" "Imports should be sorted alphabetically",
              Diagnostic.mk 10 "sort-imports"
                "Expected 'none' syntax before 'single' syntax"]
    ∧ (10 : Nat) < 30 :=
  ⟨by decide, by decide⟩

/-- Claim C1 (amended): within one statement-order checker run, the
alphabetical violation indices are strictly ascending, the group-order
violation indices are strictly ascending, and the output is the whole
alphabetical batch followed by the whole group-order batch (member-order
diagnostics having been emitted during traversal, before both batches);
ascending source order holds within each batch but not across batches. -/
theorem claim_C1_amended (opts : SortImportsOptions) (specs : List ImportIdent)
    (f : Option Nat) (E U : Option (List Nat))
    (hres : get_err_index opts specs (some true) = some (f, E, U)) :
    (E.getD []).Pairwise (· < ·) ∧ (U.getD []).Pairwise (· < ·)
    ∧ sort_line_imports opts specs
        = some ((E.getD []).map (alpha_diag specs) ++ (U.getD []).map (group_diag specs)) := by
  obtain ⟨hE, hU⟩ := get_err_index_some_shape opts specs f E U hres
  refine ⟨?_, ?_, sort_line_imports_shape opts specs f E U hres⟩
  · rw [hE]
    exact errs_cf_pairwise opts specs _ (some true) 0 specs.length
  · rw [hU]
    exact unexp_cf_pairwise opts specs (some true) 0 specs.length

/-- The record sequence `lint_module` collects for `c1_module`. -/
def c1_imports : List ImportIdent :=
  [ImportIdent.mk "b" 0 ImportTypes.Single, ImportIdent.mk "" 10 ImportTypes.None,
   ImportIdent.mk "b" 20 ImportTypes.Single, ImportIdent.mk "a" 30 ImportTypes.Single]

/-- Claim C1 (amended) witness: the amended theorem applied to the record
sequence of `c1_module`, whose scan yields alphabetical index 3 and
group-order index 1. -/
theorem claim_C1_amended_witness :
    ((some [3] : Option (List Nat)).getD []).Pairwise (· < ·)
    ∧ ((some [1] : Option (List Nat)).getD []).Pairwise (· < ·)
    ∧ sort_line_imports default_options c1_imports
        = some (((some [3] : Option (List Nat)).getD []).map (alpha_diag c1_imports)
            ++ ((some [1] : Option (List Nat)).getD []).map (group_diag c1_imports)) :=
  claim_C1_amended default_options c1_imports (some 3) (some [3]) (some [1]) (by decide)
